import Mathlib

/-!
# Verification of the SEMCL.ONE PyPI stats dashboard aggregation logic

Shallow embedding of the data-aggregation functions of `dashboard.js`
(the repository ships two near-identical copies of the script; the claimed
functions — `formatNumber`, `loadStats`, `renderSummaryCards`,
`renderTrendsChart`, `renderPythonVersionsChart`, `renderSystemsChart` —
have identical aggregation logic in both, so one embedding covers both).

Modelling conventions:
* A JSON field that may be absent is an `Option`; `undefined`/`null` are `none`.
  A present string value (possibly `""`) is `some s`.  JavaScript truthiness of
  an optional string (`!x` in the source) is `jsTruthy`: `none` and `some ""`
  are falsy.
* `x || 0` on an optional count is `Option.getD 0` (the numeric value `0` is
  itself falsy in JavaScript, and `0 || 0 = 0`, so `getD 0` agrees on every
  case).
* A JavaScript object used as a dictionary (`versionTotals`, `systemTotals`)
  is an association list with unique keys in insertion order; the update
  `obj[k] = (obj[k] || 0) + v` is `bump`, which updates the existing entry in
  place or appends a new one at the end.
* `Array.prototype.sort` is stable (ECMAScript 2019); it is modelled by
  `List.insertionSort`, which Mathlib implements as a stable sort.  The
  comparator `a.x.localeCompare(b.x)` on zero-padded ISO dates agrees with
  lexicographic string order, modelled by `≤` on `String`; the comparator
  `(a, b) => b[1] - a[1]` is the relation `b.2 ≤ a.2` (descending by total).
* A JavaScript `Set` matters only through membership; it is modelled by the
  list of elements added to it.
* The `fetch`/DOM boundary of `loadStats` is modelled by an explicit
  `FetchResult` input and a `PageOutcome` output: the `catch` branch writes a
  single error message into the summary-cards container and renders nothing.
-/

/-- JavaScript truthiness of an optional string: `undefined`, `null` and the
empty string are falsy; every other string is truthy. -/
def jsTruthy : Option String → Bool
  | none => false
  | some s => !(s == "")

/-- One observation of a package's daily series (`overall.data` entries):
`{date, downloads, category}`, with `downloads` and `category` optional. -/
structure DailyPoint where
  date : String
  downloads : Option Nat
  category : Option String
deriving DecidableEq, Repr

/-- One `(category, downloads)` observation of the `python_versions.data` or
`system.data` facets, both fields optional in the raw JSON. -/
structure CategoryCount where
  category : Option String
  downloads : Option Nat
deriving DecidableEq, Repr

/-- The `recent.data` object: six optional counters. -/
structure RecentData where
  last_day : Option Nat
  last_week : Option Nat
  last_month : Option Nat
  last_day_without_mirrors : Option Nat
  last_week_without_mirrors : Option Nat
  last_month_without_mirrors : Option Nat
deriving DecidableEq, Repr

/-- Per-package statistics bundle.  Each facet models `pkgData.<facet>?.data`:
`none` stands for a missing facet envelope or missing `data` field. -/
structure PackageStats where
  recent : Option RecentData
  overall : Option (List DailyPoint)
  python_versions : Option (List CategoryCount)
  system : Option (List CategoryCount)
deriving DecidableEq, Repr

/-- The root snapshot document (`stats.json`): `last_updated` plus the
`packages` object, modelled as an association list in insertion order. -/
structure Snapshot where
  last_updated : String
  packages : List (String × PackageStats)
deriving DecidableEq, Repr

/-- The six zero-filled counters shown on one summary card. -/
structure RecentWindow where
  last_day : Nat
  last_week : Nat
  last_month : Nat
  last_day_without_mirrors : Nat
  last_week_without_mirrors : Nat
  last_month_without_mirrors : Nat
deriving DecidableEq, Repr

/-- The empty `recent.data` object (`pkgData.recent?.data || {}`). -/
def emptyRecentData : RecentData := ⟨none, none, none, none, none, none⟩

/-- The defaulting performed by `renderSummaryCards` for one package:
`const recent = pkgData.recent?.data || {}` followed by `x = recent.f || 0`
for each of the six fields. -/
def summaryCard (ps : PackageStats) : RecentWindow :=
  let recent := ps.recent.getD emptyRecentData
  { last_day := recent.last_day.getD 0
    last_week := recent.last_week.getD 0
    last_month := recent.last_month.getD 0
    last_day_without_mirrors := recent.last_day_without_mirrors.getD 0
    last_week_without_mirrors := recent.last_week_without_mirrors.getD 0
    last_month_without_mirrors := recent.last_month_without_mirrors.getD 0 }

/-- `renderSummaryCards`: one card per package, in object insertion order. -/
def renderSummaryCards (packages : List (String × PackageStats)) :
    List (String × RecentWindow) :=
  packages.map (fun p => (p.1, summaryCard p.2))

/-- The trends filter `d => !d.category || d.category === 'without_mirrors'`. -/
def trendKeep (d : DailyPoint) : Bool :=
  !(jsTruthy d.category) || d.category == some "without_mirrors"

/-- The filtered and mapped (unsorted) series of one package:
`overall.filter(...).map(d => ({x: d.date, y: d.downloads || 0}))`. -/
def trendPoints (ps : PackageStats) : List (String × Nat) :=
  ((ps.overall.getD []).filter trendKeep).map (fun d => (d.date, d.downloads.getD 0))

/-- The per-package `dataPoints` of `renderTrendsChart`: filtered, mapped and
stably sorted ascending by date (`.sort((a, b) => a.x.localeCompare(b.x))`). -/
def dataPointsOf (ps : PackageStats) : List (String × Nat) :=
  List.insertionSort (fun a b => a.1 ≤ b.1) (trendPoints ps)

/-- `renderTrendsChart`: first component is the `datasets` array (label and
data of each pushed dataset; packages whose `dataPoints` are empty are not
pushed), second component is the `allDates` set, as the list of dates added to
it (one `add` per filtered point, across all packages). -/
def renderTrendsChart (packages : List (String × PackageStats)) :
    List (String × List (String × Nat)) × List String :=
  ((packages.filter (fun p => decide (0 < (dataPointsOf p.2).length))).map
      (fun p => (p.1, dataPointsOf p.2)),
   packages.flatMap (fun p => ((p.2.overall.getD []).filter trendKeep).map (·.date)))

/-- The categorical filter `item.category && item.category !== 'null'`. -/
def catKeep (item : CategoryCount) : Bool :=
  jsTruthy item.category && !(item.category == some "null")

/-- The object update `totals[k] = (totals[k] || 0) + v`: replace the value of
the (unique) existing entry for key `k`, or append a new entry at the end. -/
def bump : List (String × Nat) → String → Nat → List (String × Nat)
  | [], k, v => [(k, v)]
  | p :: ps, k, v => if p.1 == k then (p.1, p.2 + v) :: ps else p :: bump ps k v

/-- Processing of one facet entry by the categorical aggregators:
`if (item.category && item.category !== 'null')
   totals[item.category] = (totals[item.category] || 0) + (item.downloads || 0)`. -/
def accumCat (m : List (String × Nat)) (item : CategoryCount) : List (String × Nat) :=
  if catKeep item then bump m (item.category.getD "") (item.downloads.getD 0) else m

/-- The totals object built by folding one facet of every package, in
iteration order (`Object.values(packages).forEach(... .forEach(...))`). -/
def facetTotals (facet : PackageStats → Option (List CategoryCount))
    (packages : List (String × PackageStats)) : List (String × Nat) :=
  packages.foldl (fun m p => ((facet p.2).getD []).foldl accumCat m) []

/-- `renderPythonVersionsChart`: totals of the `python_versions` facet,
stably sorted descending by total (`.sort((a, b) => b[1] - a[1])`), truncated
to the top 10 (`.slice(0, 10)`).  Returns the chart's `(label, value)` data. -/
def renderPythonVersionsChart (packages : List (String × PackageStats)) :
    List (String × Nat) :=
  (List.insertionSort (fun a b => b.2 ≤ a.2)
    (facetTotals PackageStats.python_versions packages)).take 10

/-- `renderSystemsChart`: totals of the `system` facet, stably sorted
descending by total, not truncated.  Returns the chart's `(label, value)`
data. -/
def renderSystemsChart (packages : List (String × PackageStats)) :
    List (String × Nat) :=
  List.insertionSort (fun a b => b.2 ≤ a.2)
    (facetTotals PackageStats.system packages)

/-- Insert a thousands separator after every third digit; the input and output
digit lists are least-significant first. -/
def addCommas : List Char → List Char
  | c1 :: c2 :: c3 :: c4 :: rest => c1 :: c2 :: c3 :: ',' :: addCommas (c4 :: rest)
  | l => l

/-- `Number.prototype.toLocaleString` for a natural number in the dashboard's
default locale: decimal digits grouped in threes by commas. -/
def natToLocaleString (n : Nat) : String :=
  String.mk (addCommas (Nat.toDigits 10 n).reverse).reverse

/-- `formatNumber(num)`: `if (!num) return '0'; return num.toLocaleString();`.
The argument is `none` for `undefined`; `some 0` is falsy like JavaScript `0`. -/
def formatNumber : Option Nat → String
  | none => "0"
  | some n => if n == 0 then "0" else natToLocaleString n

/-- The outcome of `fetch('data/stats.json')` followed by `response.json()`:
either the promise rejects (network failure, with the rejection's message), or
a response arrives with an `ok` flag, a status code, and a body that either
parses as a snapshot or fails to parse (with the parse error's message). -/
inductive FetchResult where
  | networkFailure (msg : String)
  | response (ok : Bool) (status : Nat) (body : Except String Snapshot)
deriving Repr

/-- Everything `loadStats` renders on success: the timestamp text plus the
four derived views handed to the card/chart renderers. -/
structure RenderedViews where
  lastUpdated : String
  summaryCards : List (String × RecentWindow)
  trendSeries : List (String × List (String × Nat))
  trendDates : List String
  pythonVersions : List (String × Nat)
  systems : List (String × Nat)
deriving DecidableEq, Repr

/-- The observable result of one `loadStats` run: either the full set of views
is rendered, or the `catch` branch writes a single error message into the
summary-cards container and nothing else is rendered. -/
inductive PageOutcome where
  | rendered (views : RenderedViews)
  | errorShown (msg : String)
deriving DecidableEq, Repr

/-- Whether an outcome rendered any cards or charts. -/
def isRendered : PageOutcome → Bool
  | .rendered _ => true
  | .errorShown _ => false

/-- The message assembled in the `catch` branch of `loadStats`. -/
def errorText (m : String) : String :=
  "Error loading statistics: " ++ m ++ ". Please check the browser console for details."

/-- `loadStats`: throw on a non-ok response (`HTTP error! status: ...`), throw
on a parse failure, otherwise render all views from the parsed snapshot; any
throw lands in the single `catch` branch. -/
def loadStats : FetchResult → PageOutcome
  | .networkFailure m => .errorShown (errorText m)
  | .response ok status body =>
    if !ok then
      .errorShown (errorText ("HTTP error! status: " ++ toString status))
    else
      match body with
      | .error m => .errorShown (errorText m)
      | .ok s =>
        .rendered
          { lastUpdated := s.last_updated
            summaryCards := renderSummaryCards s.packages
            trendSeries := (renderTrendsChart s.packages).1
            trendDates := (renderTrendsChart s.packages).2
            pythonVersions := renderPythonVersionsChart s.packages
            systems := renderSystemsChart s.packages }

/-- All entries of the `python_versions` facet across all packages, in
iteration order. -/
def pvEntries (packages : List (String × PackageStats)) : List CategoryCount :=
  packages.flatMap (fun p => p.2.python_versions.getD [])

/-- All entries of the `system` facet across all packages, in iteration
order. -/
def sysEntries (packages : List (String × PackageStats)) : List CategoryCount :=
  packages.flatMap (fun p => p.2.system.getD [])

/-- The sum of the (defaulted) downloads of the aggregated (non-skipped)
entries whose category is `c`. -/
def keptSum (entries : List CategoryCount) (c : String) : Nat :=
  ((entries.filter (fun e => catKeep e && (e.category == some c))).map
    (fun e => e.downloads.getD 0)).sum

/-- First-match lookup in a totals object, mirroring `totals[k]`. -/
def lookupTotal : List (String × Nat) → String → Option Nat
  | [], _ => none
  | p :: ps, k => if p.1 == k then some p.2 else lookupTotal ps k

/-- A copy of a package's stats with the aggregator-skipped entries (absent,
empty or `"null"` category) removed from both categorical facets. -/
def dropSkippedEntries (ps : PackageStats) : PackageStats :=
  { ps with
    python_versions := ps.python_versions.map (fun l => l.filter catKeep)
    system := ps.system.map (fun l => l.filter catKeep) }

/-- A copy of a package's stats with the falsy-category entries (absent or
empty-string category) removed from both categorical facets. -/
def dropFalsyEntries (ps : PackageStats) : PackageStats :=
  { ps with
    python_versions := ps.python_versions.map (fun l => l.filter (fun e => jsTruthy e.category))
    system := ps.system.map (fun l => l.filter (fun e => jsTruthy e.category)) }

/-- The time-series filter as worded by the specification: `category` is
absent or equal to `"without_mirrors"` (an empty-string category is NOT
covered).  Used only to compare the spec's wording against the code. -/
def claimTrendKeep (d : DailyPoint) : Bool :=
  d.category == none || d.category == some "without_mirrors"

/-- The categorical exclusion rule as worded by the specification: only
entries whose `category` is absent or the string `"null"` are excluded (an
empty-string category is NOT excluded).  Used only to compare the spec's
wording against the code. -/
def claimCatKeep (e : CategoryCount) : Bool :=
  !(e.category == none) && !(e.category == some "null")

/-- A daily point carrying the empty string as its `category`. -/
def emptyCategoryPoint : DailyPoint := ⟨"2025-01-01", some 5, some ""⟩

/-- A package whose `overall` series is the single empty-category point. -/
def emptyCategoryPkg : PackageStats := ⟨none, some [emptyCategoryPoint], none, none⟩

/-- A categorical facet entry carrying the empty string as its `category`. -/
def emptyCategoryEntry : CategoryCount := ⟨some "", some 5⟩

/-- A package whose `python_versions` facet is the single empty-category
entry. -/
def emptyCategoryCatPkg : PackageStats := ⟨none, none, some [emptyCategoryEntry], none⟩

/-- A package whose `system` facet holds two categories with equal totals. -/
def tieTotalsPkg : PackageStats :=
  ⟨none, none, none, some [⟨some "a", some 5⟩, ⟨some "b", some 5⟩]⟩

/-- The `pkgA` package of the spec's recent-window scenario:
`{"recent": {"data": {"last_day": 100, "last_week": 700}}}`. -/
def pkgAStats : PackageStats :=
  ⟨some ⟨some 100, some 700, none, none, none, none⟩, none, none, none⟩

/-- A package whose `overall` series is nonempty but has no surviving point
(its only point carries a mirrored-traffic category). -/
def allFilteredPkg : PackageStats :=
  ⟨none, some [⟨"2025-01-01", some 3, some "with_mirrors"⟩], none, none⟩

/-- The two packages of the spec's categorical scenario: `python_versions`
totals `{"3.9": 50, "3.10": 80}` and `{"3.10": 20, "null": 999}`. -/
def scenarioPkgs : List (String × PackageStats) :=
  [("p", ⟨none, none, some [⟨some "3.9", some 50⟩, ⟨some "3.10", some 80⟩], none⟩),
   ("q", ⟨none, none, some [⟨some "3.10", some 20⟩, ⟨some "null", some 999⟩], none⟩)]

example : renderPythonVersionsChart scenarioPkgs = [("3.10", 100), ("3.9", 50)] := by decide

example :
    summaryCard ⟨some ⟨some 100, some 700, none, none, none, none⟩, none, none, none⟩ =
      ⟨100, 700, 0, 0, 0, 0⟩ := by decide

/-! ### Helper lemmas: the totals object built by the categorical fold -/

theorem lookupTotal_bump (m : List (String × Nat)) (k' : String) (v : Nat) (k : String) :
    lookupTotal (bump m k' v) k =
      if k = k' then some ((lookupTotal m k').getD 0 + v) else lookupTotal m k := by
  induction m with
  | nil =>
    by_cases h : k = k'
    · subst h; simp [bump, lookupTotal]
    · simp [bump, lookupTotal, h, Ne.symm h]
  | cons p ps ih =>
    by_cases hp : p.1 = k'
    · subst hp
      by_cases hk : k = p.1
      · subst hk; simp [bump, lookupTotal]
      · simp [bump, lookupTotal, hk, Ne.symm hk]
    · by_cases hk : k = p.1
      · subst hk
        simp [bump, lookupTotal, hp]
      · by_cases hkk : k = k'
        · subst hkk
          simp [bump, lookupTotal, hp, Ne.symm hk, ih]
        · simp [bump, lookupTotal, hp, Ne.symm hk, ih, hkk]

theorem mem_keys_bump (m : List (String × Nat)) (k' : String) (v : Nat) (k : String) :
    k ∈ (bump m k' v).map Prod.fst ↔ k ∈ m.map Prod.fst ∨ k = k' := by
  induction m with
  | nil => simp [bump]
  | cons p ps ih =>
    by_cases hp : p.1 = k'
    · subst hp
      simp only [bump, beq_self_eq_true, if_true, List.map_cons, List.mem_cons]
      tauto
    · simp only [bump, beq_iff_eq, hp, if_false, List.map_cons, List.mem_cons, ih]
      tauto

theorem catKeep_category (e : CategoryCount) (h : catKeep e = true) :
    ∃ s, e.category = some s ∧ s ≠ "" ∧ s ≠ "null" := by
  cases hc : e.category with
  | none => rw [catKeep, hc] at h; simp [jsTruthy] at h
  | some s =>
    refine ⟨s, rfl, ?_, ?_⟩
    · rw [catKeep, hc] at h
      simp only [jsTruthy, Bool.and_eq_true, Bool.not_eq_true'] at h
      simpa using h.1
    · rw [catKeep, hc] at h
      simp only [Bool.and_eq_true, Bool.not_eq_true'] at h
      simpa using h.2

theorem nodup_keys_bump (m : List (String × Nat)) (k : String) (v : Nat)
    (h : (m.map Prod.fst).Nodup) : ((bump m k v).map Prod.fst).Nodup := by
  induction m with
  | nil => simp [bump]
  | cons p ps ih =>
    simp only [List.map_cons, List.nodup_cons] at h
    by_cases hp : p.1 = k
    · subst hp
      simpa [bump, List.nodup_cons] using h
    · simp only [bump, beq_iff_eq, hp, if_false, List.map_cons, List.nodup_cons]
      refine ⟨fun hmem => ?_, ih h.2⟩
      rcases (mem_keys_bump ps k v p.1).mp hmem with h1 | h2
      · exact h.1 h1
      · exact hp h2

theorem keptSum_cons (e : CategoryCount) (es : List CategoryCount) (c : String) :
    keptSum (e :: es) c =
      (if (catKeep e && (e.category == some c)) = true then e.downloads.getD 0 else 0) +
        keptSum es c := by
  simp only [keptSum, List.filter_cons]
  split <;> simp_all

theorem lookupTotal_foldl_accumCat (entries : List CategoryCount)
    (m : List (String × Nat)) (c : String) :
    (lookupTotal (entries.foldl accumCat m) c).getD 0 =
      (lookupTotal m c).getD 0 + keptSum entries c := by
  induction entries generalizing m with
  | nil => simp [keptSum]
  | cons e es ih =>
    rw [List.foldl_cons, ih, keptSum_cons]
    by_cases hk : catKeep e = true
    · obtain ⟨s, hs, -, -⟩ := catKeep_category e hk
      by_cases hc : e.category = some c
      · have hsc : s = c := by rw [hs] at hc; injection hc
        subst hsc
        simp only [accumCat, hk, if_true, hs, Option.getD_some, lookupTotal_bump,
          if_pos rfl, hc]
        simp [hk, hc]
        omega
      · have hne : c ≠ s := by
          intro hcs; exact hc (by rw [hs, hcs])
        simp only [accumCat, hk, if_true, hs, Option.getD_some, lookupTotal_bump,
          if_neg hne]
        simp [hk, hc, hs, Ne.symm hne]
    · simp only [accumCat, hk, if_false]
      simp only [Bool.not_eq_true] at hk
      simp [hk]

theorem mem_keys_foldl_accumCat (entries : List CategoryCount)
    (m : List (String × Nat)) (c : String) :
    c ∈ (entries.foldl accumCat m).map Prod.fst ↔
      c ∈ m.map Prod.fst ∨ ∃ e ∈ entries, catKeep e = true ∧ e.category = some c := by
  induction entries generalizing m with
  | nil => simp
  | cons e es ih =>
    rw [List.foldl_cons, ih]
    by_cases hk : catKeep e = true
    · obtain ⟨s, hs, -, -⟩ := catKeep_category e hk
      simp only [accumCat, hk, if_true, hs, Option.getD_some, mem_keys_bump]
      constructor
      · rintro (( h | rfl) | h)
        · exact Or.inl h
        · exact Or.inr ⟨e, List.mem_cons_self e es, hk, hs⟩
        · obtain ⟨e', he', hke', hce'⟩ := h
          exact Or.inr ⟨e', List.mem_cons_of_mem e he', hke', hce'⟩
      · rintro (h | ⟨e', he', hke', hce'⟩)
        · exact Or.inl (Or.inl h)
        · rcases List.mem_cons.mp he' with rfl | he'
          · rw [hs] at hce'; injection hce' with hsc
            exact Or.inl (Or.inr hsc.symm)
          · exact Or.inr ⟨e', he', hke', hce'⟩
    · simp only [accumCat, hk, if_false]
      constructor
      · rintro (h | ⟨e', he', hke', hce'⟩)
        · exact Or.inl h
        · exact Or.inr ⟨e', List.mem_cons_of_mem e he', hke', hce'⟩
      · rintro (h | ⟨e', he', hke', hce'⟩)
        · exact Or.inl h
        · rcases List.mem_cons.mp he' with rfl | he'
          · exact absurd hke' hk
          · exact Or.inr ⟨e', he', hke', hce'⟩

theorem nodup_keys_foldl_accumCat (entries : List CategoryCount)
    (m : List (String × Nat)) (h : (m.map Prod.fst).Nodup) :
    ((entries.foldl accumCat m).map Prod.fst).Nodup := by
  induction entries generalizing m with
  | nil => exact h
  | cons e es ih =>
    rw [List.foldl_cons]
    refine ih _ ?_
    by_cases hk : catKeep e = true
    · simpa only [accumCat, hk, if_true] using nodup_keys_bump _ _ _ h
    · simpa only [accumCat, hk, if_false] using h

theorem lookupTotal_eq_of_mem (m : List (String × Nat)) (c : String) (t : Nat)
    (hnd : (m.map Prod.fst).Nodup) (hmem : (c, t) ∈ m) : lookupTotal m c = some t := by
  induction m with
  | nil => cases hmem
  | cons p ps ih =>
    simp only [List.map_cons, List.nodup_cons] at hnd
    rcases List.mem_cons.mp hmem with rfl | hmem'
    · simp [lookupTotal]
    · have hpc : p.1 ≠ c := by
        intro hpc
        exact hnd.1 (by
          subst hpc
          exact List.mem_map.mpr ⟨(p.1, t), hmem', rfl⟩)
      simp only [lookupTotal, beq_iff_eq, hpc, if_false]
      exact ih hnd.2 hmem'

theorem facetTotals_eq_flat (facet : PackageStats → Option (List CategoryCount))
    (packages : List (String × PackageStats)) :
    facetTotals facet packages =
      (packages.flatMap (fun p => (facet p.2).getD [])).foldl accumCat [] := by
  suffices h : ∀ (pkgs : List (String × PackageStats)) (m : List (String × Nat)),
      pkgs.foldl (fun m p => ((facet p.2).getD []).foldl accumCat m) m =
        (pkgs.flatMap (fun p => (facet p.2).getD [])).foldl accumCat m by
    exact h packages []
  intro pkgs
  induction pkgs with
  | nil => intro m; rfl
  | cons p ps ih =>
    intro m
    rw [List.foldl_cons, List.flatMap_cons, List.foldl_append, ih]

theorem foldl_accumCat_filter (q : CategoryCount → Bool) (entries : List CategoryCount)
    (m : List (String × Nat)) (h : ∀ e ∈ entries, q e = false → catKeep e = false) :
    (entries.filter q).foldl accumCat m = entries.foldl accumCat m := by
  induction entries generalizing m with
  | nil => rfl
  | cons e es ih =>
    rw [List.filter_cons]
    by_cases hq : q e = true
    · rw [if_pos hq, List.foldl_cons, List.foldl_cons]
      exact ih _ (fun e' he' => h e' (List.mem_cons_of_mem e he'))
    · rw [if_neg hq, List.foldl_cons]
      have hskip : accumCat m e = m := by
        have : catKeep e = false :=
          h e (List.mem_cons_self e es) (Bool.not_eq_true _ ▸ hq)
        simp [accumCat, this]
      rw [hskip]
      exact ih _ (fun e' he' => h e' (List.mem_cons_of_mem e he'))

/-! ### Helper lemmas: stability of the stable sorts -/

theorem filter_key_orderedInsert (x : String × Nat) (m : List (String × Nat)) (d : String) :
    (List.orderedInsert (fun a b => a.1 ≤ b.1) x m).filter (fun q => q.1 == d) =
      if x.1 = d then x :: m.filter (fun q => q.1 == d)
      else m.filter (fun q => q.1 == d) := by
  induction m with
  | nil =>
    simp only [List.orderedInsert, List.filter_cons, List.filter_nil, beq_iff_eq]
  | cons b bs ih =>
    simp only [List.orderedInsert]
    by_cases hr : x.1 ≤ b.1
    · rw [if_pos hr]
      simp only [List.filter_cons, beq_iff_eq]
    · rw [if_neg hr]
      have hbx : b.1 < x.1 := lt_of_not_le hr
      simp only [List.filter_cons, beq_iff_eq, ih]
      by_cases hx : x.1 = d
      · have hbd : ¬ b.1 = d := fun hbd => absurd (hx ▸ hbd ▸ hbx) (lt_irrefl _)
        simp [hx, hbd]
      · simp only [hx, if_false]

theorem filter_key_insertionSort (l : List (String × Nat)) (d : String) :
    (List.insertionSort (fun a b => a.1 ≤ b.1) l).filter (fun q => q.1 == d) =
      l.filter (fun q => q.1 == d) := by
  induction l with
  | nil => rfl
  | cons x xs ih =>
    simp only [List.insertionSort, filter_key_orderedInsert, List.filter_cons, beq_iff_eq, ih]

theorem assoc_value_eq_of_nodup_keys {β : Type} (l : List (String × β)) (k : String)
    (a b : β) (hnd : (l.map Prod.fst).Nodup) (ha : (k, a) ∈ l) (hb : (k, b) ∈ l) :
    a = b := by
  induction l with
  | nil => cases ha
  | cons p ps ih =>
    simp only [List.map_cons, List.nodup_cons] at hnd
    rcases List.mem_cons.mp ha with rfl | ha' <;> rcases List.mem_cons.mp hb with hpb | hb'
    · exact (congrArg Prod.snd hpb.symm : _)
    · exact absurd (List.mem_map.mpr ⟨(k, b), hb', rfl⟩) hnd.1
    · rcases hpb with rfl
      exact absurd (List.mem_map.mpr ⟨(k, a), ha', rfl⟩) hnd.1
    · exact ih hnd.2 ha' hb'

theorem facetTotals_value (facet : PackageStats → Option (List CategoryCount))
    (packages : List (String × PackageStats)) (c : String) (t : Nat)
    (h : (c, t) ∈ facetTotals facet packages) :
    t = keptSum (packages.flatMap (fun p => (facet p.2).getD [])) c := by
  rw [facetTotals_eq_flat] at h
  have hnd : (((packages.flatMap (fun p => (facet p.2).getD [])).foldl
      accumCat []).map Prod.fst).Nodup :=
    nodup_keys_foldl_accumCat _ [] (by simp)
  have hl := lookupTotal_eq_of_mem _ c t hnd h
  have h2 := lookupTotal_foldl_accumCat (packages.flatMap (fun p => (facet p.2).getD [])) [] c
  rw [hl] at h2
  simpa [lookupTotal] using h2

theorem mem_keys_facetTotals (facet : PackageStats → Option (List CategoryCount))
    (packages : List (String × PackageStats)) (c : String) :
    c ∈ (facetTotals facet packages).map Prod.fst ↔
      ∃ e ∈ packages.flatMap (fun p => (facet p.2).getD []),
        catKeep e = true ∧ e.category = some c := by
  rw [facetTotals_eq_flat, mem_keys_foldl_accumCat]
  simp

theorem facetTotals_filter_entries (q : CategoryCount → Bool)
    (hq : ∀ e, q e = false → catKeep e = false)
    (facet : PackageStats → Option (List CategoryCount))
    (tr : PackageStats → PackageStats)
    (htr : ∀ ps, facet (tr ps) = (facet ps).map (fun l => l.filter q))
    (packages : List (String × PackageStats)) :
    facetTotals facet (packages.map (fun p => (p.1, tr p.2))) =
      facetTotals facet packages := by
  rw [facetTotals_eq_flat, facetTotals_eq_flat, List.flatMap_map]
  have hgetd : ∀ (o : Option (List CategoryCount)),
      (o.map (fun l => l.filter q)).getD [] = (o.getD []).filter q := by
    intro o; cases o <;> rfl
  have hfl : (packages.flatMap fun a => (facet ((fun p => (p.1, tr p.2)) a).2).getD []) =
      (packages.flatMap (fun p => (facet p.2).getD [])).filter q := by
    rw [List.filter_flatMap]
    simp only [htr, hgetd]
  rw [hfl]
  exact foldl_accumCat_filter q _ [] (fun e _ => hq e)

theorem pairwise_le_dataPointsOf (ps : PackageStats) :
    List.Pairwise (fun a b : String × Nat => a.1 ≤ b.1) (dataPointsOf ps) := by
  haveI : IsTotal (String × Nat) (fun a b => a.1 ≤ b.1) := ⟨fun a b => le_total a.1 b.1⟩
  haveI : IsTrans (String × Nat) (fun a b => a.1 ≤ b.1) :=
    ⟨fun _ _ _ h1 h2 => le_trans h1 h2⟩
  exact List.sorted_insertionSort _ _

theorem pairwise_ge_insertionSort_desc (l : List (String × Nat)) :
    List.Pairwise (fun a b : String × Nat => b.2 ≤ a.2)
      (List.insertionSort (fun a b => b.2 ≤ a.2) l) := by
  haveI : IsTotal (String × Nat) (fun a b : String × Nat => b.2 ≤ a.2) :=
    ⟨fun a b => le_total b.2 a.2⟩
  haveI : IsTrans (String × Nat) (fun a b : String × Nat => b.2 ≤ a.2) :=
    ⟨fun _ _ _ h1 h2 => le_trans h2 h1⟩
  exact List.sorted_insertionSort _ _

/-! ### Claim theorems -/

/-- C1, counterexample: the code's trends filter keeps a point whose
`category` is the empty string (JavaScript falsiness), so the output series
is not "exactly those points whose `category` field is absent or equal to
`without_mirrors`": on a package whose single `overall` point carries
`category = ""`, the rendered series contains that point while the claim's
filter keeps nothing. -/
theorem c1_counterexample :
    dataPointsOf emptyCategoryPkg = [("2025-01-01", 5)] ∧
    ((emptyCategoryPkg.overall.getD []).filter claimTrendKeep).map
      (fun d => (d.date, d.downloads.getD 0)) = [] :=
  ⟨rfl, rfl⟩

/-- C1, amended: for every package, the Time-Series Aggregator's output
sequence contains exactly those points of the `overall` facet kept by the
code's filter (`category` falsy — absent or empty — or equal to
`"without_mirrors"`), mapped to `(date, downloads)` pairs (it is a
permutation of the filtered-and-mapped list, so duplicates are neither
deduplicated nor summed), sorted non-decreasing by date under lexicographic
string comparison, and the sort is stable: for every date `d` the points with
date `d` appear in their original relative order. -/
theorem c1_series_exact_sorted_stable (ps : PackageStats) :
    (dataPointsOf ps).Perm (trendPoints ps) ∧
    List.Pairwise (fun a b : String × Nat => a.1 ≤ b.1) (dataPointsOf ps) ∧
    ∀ d : String, (dataPointsOf ps).filter (fun q => q.1 == d) =
      (trendPoints ps).filter (fun q => q.1 == d) :=
  ⟨List.perm_insertionSort _ _, pairwise_le_dataPointsOf ps,
   fun d => filter_key_insertionSort _ d⟩

/-- C2, counterexample: an entry whose `category` is the empty string is not
excluded by the claim's rule (absent or `"null"`), yet the code's aggregator
skips it, so the returned totals are not the sums over the claim's
non-excluded entries: on a single package whose `python_versions` facet is
one empty-category entry with 5 downloads, the claim predicts a returned
total of 5 for category `""`, but the code returns no totals at all. -/
theorem c2_counterexample :
    renderPythonVersionsChart [("p", emptyCategoryCatPkg)] = [] ∧
    (pvEntries [("p", emptyCategoryCatPkg)]).filter claimCatKeep = [emptyCategoryEntry] ∧
    emptyCategoryEntry.downloads.getD 0 = 5 :=
  ⟨rfl, rfl, rfl⟩

/-- C2, amended: entries skipped by the code's rule (`category` absent,
empty, or equal to `"null"`) contribute to no returned total — removing them
from every package leaves both categorical outputs unchanged — and every
returned `(category, total)` pair of either categorical view carries exactly
the sum of the (zero-defaulted) `downloads` of the kept entries of that
category across all packages. -/
theorem c2_totals_exclusion_and_sums (packages : List (String × PackageStats))
    (c : String) (t : Nat) :
    (renderPythonVersionsChart (packages.map (fun p => (p.1, dropSkippedEntries p.2))) =
       renderPythonVersionsChart packages) ∧
    (renderSystemsChart (packages.map (fun p => (p.1, dropSkippedEntries p.2))) =
       renderSystemsChart packages) ∧
    ((c, t) ∈ renderPythonVersionsChart packages → t = keptSum (pvEntries packages) c) ∧
    ((c, t) ∈ renderSystemsChart packages → t = keptSum (sysEntries packages) c) := by
  refine ⟨?_, ?_, ?_, ?_⟩
  · show (List.insertionSort _ (facetTotals PackageStats.python_versions _)).take 10 = _
    rw [facetTotals_filter_entries catKeep (fun e h => h) PackageStats.python_versions
      dropSkippedEntries (fun ps => rfl) packages]
    rfl
  · show List.insertionSort _ (facetTotals PackageStats.system _) = _
    rw [facetTotals_filter_entries catKeep (fun e h => h) PackageStats.system
      dropSkippedEntries (fun ps => rfl) packages]
    rfl
  · intro h
    have h1 : (c, t) ∈ facetTotals PackageStats.python_versions packages :=
      (List.mem_insertionSort _).mp (List.mem_of_mem_take h)
    exact facetTotals_value _ _ _ _ h1
  · intro h
    have h1 : (c, t) ∈ facetTotals PackageStats.system packages :=
      (List.mem_insertionSort _).mp h
    exact facetTotals_value _ _ _ _ h1

/-- C2, witness: on the spec's own scenario the `"3.10"` entry of the
ranked interpreter-version list carries total 100, the sum over the kept
entries of that category. -/
theorem c2_totals_witness : (100 : Nat) = keptSum (pvEntries scenarioPkgs) "3.10" :=
  (c2_totals_exclusion_and_sums scenarioPkgs "3.10" 100).2.2.1 (by decide)

/-- C3, counterexample: the comparator `(a, b) => b[1] - a[1]` is a
non-strict descending sort, so two categories with equal totals refute
"sorted strictly descending by total": on a package whose `system` facet
holds categories `"a"` and `"b"` with 5 downloads each, the returned sequence
is `[("a", 5), ("b", 5)]`, which is not strictly descending. -/
theorem c3_counterexample :
    renderSystemsChart [("p", tieTotalsPkg)] = [("a", 5), ("b", 5)] ∧
    ¬ List.Pairwise (fun x y : String × Nat => y.2 < x.2)
        (renderSystemsChart [("p", tieTotalsPkg)]) :=
  ⟨rfl, by decide⟩

/-- C3, amended: for every input, both categorical outputs are sorted
non-increasing (descending with ties allowed) by total. -/
theorem c3_sorted_nonincreasing (packages : List (String × PackageStats)) :
    List.Pairwise (fun a b : String × Nat => b.2 ≤ a.2)
      (renderPythonVersionsChart packages) ∧
    List.Pairwise (fun a b : String × Nat => b.2 ≤ a.2)
      (renderSystemsChart packages) :=
  ⟨List.Pairwise.sublist (List.take_sublist _ _) (pairwise_ge_insertionSort_desc _),
   pairwise_ge_insertionSort_desc _⟩

/-- C4: the interpreter-version ranked list has length at most 10 for every
input, while the operating-system ranked list is never truncated: it carries
an entry for a category exactly when some package has a non-skipped `system`
entry of that category. -/
theorem c4_top10_and_full_systems (packages : List (String × PackageStats)) (c : String) :
    (renderPythonVersionsChart packages).length ≤ 10 ∧
    (c ∈ (renderSystemsChart packages).map Prod.fst ↔
      ∃ e ∈ sysEntries packages, catKeep e = true ∧ e.category = some c) := by
  constructor
  · have h : ∀ (l : List (String × Nat)), (l.take 10).length ≤ 10 := by
      intro l; rw [List.length_take]; exact min_le_left _ _
    exact h _
  · have hperm := ((List.perm_insertionSort (fun a b : String × Nat => b.2 ≤ a.2)
      (facetTotals PackageStats.system packages)).map Prod.fst).mem_iff (a := c)
    show c ∈ (List.insertionSort _ (facetTotals PackageStats.system packages)).map
      Prod.fst ↔ _
    rw [hperm]
    exact mem_keys_facetTotals _ _ c

/-- C5: the Recent-Window Aggregator populates all six fields, defaulting
each missing numeric field to zero; with no `recent` facet all six fields are
zero, and the spec's `pkgA` scenario yields
`{last_day: 100, last_week: 700, last_month: 0, ...without_mirrors: 0}`. -/
theorem c5_recent_window_defaults :
    (∀ (r : RecentData) (ov : Option (List DailyPoint))
        (pv sy : Option (List CategoryCount)),
        summaryCard ⟨some r, ov, pv, sy⟩ =
          ⟨r.last_day.getD 0, r.last_week.getD 0, r.last_month.getD 0,
           r.last_day_without_mirrors.getD 0, r.last_week_without_mirrors.getD 0,
           r.last_month_without_mirrors.getD 0⟩) ∧
    (∀ (ov : Option (List DailyPoint)) (pv sy : Option (List CategoryCount)),
        summaryCard ⟨none, ov, pv, sy⟩ = ⟨0, 0, 0, 0, 0, 0⟩) ∧
    renderSummaryCards [("pkgA", pkgAStats)] = [("pkgA", ⟨100, 700, 0, 0, 0, 0⟩)] :=
  ⟨fun _ _ _ _ => rfl, fun _ _ _ => rfl, rfl⟩

/-- C6, counterexample: the claim counts surviving points with its own
filter (`category` absent or `"without_mirrors"`).  A package whose single
`overall` point carries `category = ""` has zero surviving points under that
filter, yet the code's filter keeps the point, so the package IS rendered:
its name appears among the dataset labels. -/
theorem c6_counterexample :
    (emptyCategoryPkg.overall.getD []).filter claimTrendKeep = [] ∧
    "p" ∈ ((renderTrendsChart [("p", emptyCategoryPkg)]).1.map Prod.fst) :=
  ⟨rfl, by decide⟩

/-- C6, amended: a package whose `overall` facet yields zero surviving
points after the code's organic filter (`category` falsy — absent or empty —
or equal to `"without_mirrors"`; in particular an absent or empty facet) is
absent from the trends output: its name is not among the rendered dataset
labels. -/
theorem c6_empty_series_omitted (packages : List (String × PackageStats))
    (name : String) (ps : PackageStats)
    (hnd : (packages.map Prod.fst).Nodup)
    (hmem : (name, ps) ∈ packages)
    (hz : (ps.overall.getD []).filter trendKeep = []) :
    name ∉ ((renderTrendsChart packages).1.map Prod.fst) := by
  intro hin
  simp only [renderTrendsChart, List.map_map, List.mem_map, Function.comp,
    List.mem_filter, decide_eq_true_eq] at hin
  obtain ⟨p, ⟨hp_mem, hp_len⟩, hp_name⟩ := hin
  have hps : p.2 = ps := by
    refine assoc_value_eq_of_nodup_keys packages name p.2 ps hnd ?_ hmem
    have : p = (name, p.2) := by
      rw [← hp_name]
    rw [← this]
    exact hp_mem
  rw [hps] at hp_len
  have hzero : dataPointsOf ps = [] := by
    unfold dataPointsOf trendPoints
    rw [hz]
    rfl
  rw [hzero] at hp_len
  exact absurd hp_len (by simp)

/-- C6, witness: a package whose only `overall` point carries a
mirrored-traffic category is absent from the rendered dataset labels. -/
theorem c6_witness :
    "p" ∉ ((renderTrendsChart [("p", allFilteredPkg)]).1.map Prod.fst) :=
  c6_empty_series_omitted [("p", allFilteredPkg)] "p" allFilteredPkg
    (by decide) (by decide) (by decide)

/-- C7, counterexample: the date set collects the dates of the points kept by
the code's filter, which keeps an empty-string category, so a date occurring
only on an empty-category point is in the set even though no point of that
date has `category` absent or `"without_mirrors"` as the claim requires. -/
theorem c7_counterexample :
    "2025-01-01" ∈ (renderTrendsChart [("p", emptyCategoryPkg)]).2 ∧
    (emptyCategoryPkg.overall.getD []).filter claimTrendKeep = [] :=
  ⟨by decide, rfl⟩

/-- C7, amended: the distinct-date set contains a date `d` if and only if
some package has an `overall` point with date `d` kept by the code's filter
(`category` falsy — absent or empty — or equal to `"without_mirrors"`); only
membership in the set is meaningful. -/
theorem c7_dates_membership (packages : List (String × PackageStats)) (d : String) :
    d ∈ (renderTrendsChart packages).2 ↔
      ∃ p ∈ packages, ∃ pt ∈ p.2.overall.getD [],
        trendKeep pt = true ∧ pt.date = d := by
  simp only [renderTrendsChart, List.mem_flatMap, List.mem_map, List.mem_filter]
  constructor
  · rintro ⟨p, hp, pt, ⟨hpt, hk⟩, hd⟩
    exact ⟨p, hp, pt, hpt, hk, hd⟩
  · rintro ⟨p, hp, pt, hpt, hk, hd⟩
    exact ⟨p, hp, pt, ⟨hpt, hk⟩, hd⟩

/-- C8: when the snapshot fetch rejects, returns a non-ok response, or the
body fails to parse, `loadStats` lands in its single `catch` branch: exactly
one user-visible error message is shown and no cards or charts are rendered
(all-or-nothing: a rendered outcome only arises from an ok, parseable
response). -/
theorem c8_load_failure_renders_nothing (status : Nat)
    (body : Except String Snapshot) (msg : String) :
    loadStats (.response false status body) =
      .errorShown (errorText ("HTTP error! status: " ++ toString status)) ∧
    loadStats (.response true status (.error msg)) = .errorShown (errorText msg) ∧
    loadStats (.networkFailure msg) = .errorShown (errorText msg) ∧
    isRendered (loadStats (.response false status body)) = false ∧
    isRendered (loadStats (.response true status (.error msg))) = false ∧
    isRendered (loadStats (.networkFailure msg)) = false :=
  ⟨rfl, rfl, rfl, rfl, rfl, rfl⟩

/-- C9: `formatNumber(0)` and `formatNumber(undefined)` both return the
string `"0"`. -/
theorem c9_formatNumber_zero : formatNumber (some 0) = "0" ∧ formatNumber none = "0" :=
  ⟨rfl, rfl⟩

/-- C10: in the categorical aggregators an entry whose `category` is falsy
(absent or the empty string) contributes to no returned total — removing all
such entries leaves both categorical outputs unchanged — while in the
Time-Series Aggregator a point whose `category` is the empty string is kept:
its `(date, downloads)` pair appears in the package's output series. -/
theorem c10_falsy_category_handling (packages : List (String × PackageStats))
    (ps : PackageStats) (pt : DailyPoint) :
    (renderPythonVersionsChart (packages.map (fun p => (p.1, dropFalsyEntries p.2))) =
       renderPythonVersionsChart packages) ∧
    (renderSystemsChart (packages.map (fun p => (p.1, dropFalsyEntries p.2))) =
       renderSystemsChart packages) ∧
    (pt ∈ ps.overall.getD [] → pt.category = some "" →
       (pt.date, pt.downloads.getD 0) ∈ dataPointsOf ps) := by
  have hq : ∀ e : CategoryCount, jsTruthy e.category = false → catKeep e = false := by
    intro e h; simp [catKeep, h]
  refine ⟨?_, ?_, ?_⟩
  · show (List.insertionSort _ (facetTotals PackageStats.python_versions _)).take 10 = _
    rw [facetTotals_filter_entries (fun e => jsTruthy e.category) hq
      PackageStats.python_versions dropFalsyEntries (fun ps => rfl) packages]
    rfl
  · show List.insertionSort _ (facetTotals PackageStats.system _) = _
    rw [facetTotals_filter_entries (fun e => jsTruthy e.category) hq
      PackageStats.system dropFalsyEntries (fun ps => rfl) packages]
    rfl
  · intro hmem hcat
    rw [dataPointsOf, List.mem_insertionSort]
    refine List.mem_map.mpr ⟨pt, List.mem_filter.mpr ⟨hmem, ?_⟩, rfl⟩
    simp [trendKeep, jsTruthy, hcat]

/-- C10, witness: the empty-category point's pair appears in its package's
output series. -/
theorem c10_witness :
    ("2025-01-01", 5) ∈ dataPointsOf emptyCategoryPkg :=
  (c10_falsy_category_handling [] emptyCategoryPkg emptyCategoryPoint).2.2
    (by decide) (by decide)
